import Mathlib

/-!
Verification model of the bluesky-scheduler client.

The definitions below are a shallow embedding of the repository's source:

* `Post`, `MediaFile`, `Status` mirror `src/types/bluesky.ts`.
* `publishPostRun` mirrors the `publishPost` function of the scheduler hook
  (`src/unnamed/part_003`, lines 40-146) as a sequential run of one publish
  attempt: every branch, state mutation and outgoing call of the source is
  reflected, with the results of the external calls (Post Store reads and
  writes, credential fetch, Publish Client login / upload / create) supplied
  by a `PublishEnv` record.  Timestamps are integers (milliseconds).
* `entryBlock` / `resumeBlock` give the same function at the granularity of
  its `await` suspension points, and `stepSys` runs timer callbacks of the
  scheduler effect (`src/unnamed/part_003`, lines 148-171) under an explicit
  cooperative interleaving, as in the browser's event loop.
* `runTickSeq` / `runActivation` run whole scheduler ticks back to back
  (no overlap between attempts).
* `scheduledPostsView` mirrors `src/src/components/ScheduledPosts.tsx`,
  `loadScheduledPosts` mirrors `src/src/components/Dashboard.tsx` (lines
  49-106), `editSubmit` mirrors `EditPostModal.handleSubmit`
  (`src/unnamed/part_000`) and `postFormScheduleSubmit` mirrors the
  scheduling branch of `PostForm.handleSubmit` (`src/unnamed/part_000`).
* `applyMigration` / `applyUpdateTables` model the two SQL scripts
  (`src/supabase/migrations/20240316000000_create_tables.sql` and
  `src/update_tables.sql`) acting on a schema state, with the standard
  PostgreSQL rule that dropping a table drops its triggers but neither
  functions nor cron entries.
-/

namespace BSched

/-- Post status, from the `status` column check and `src/types/bluesky.ts`. -/
inductive Status where
  | scheduled
  | published
  | failed
deriving DecidableEq

/-- A media attachment, from `MediaFile` in `src/types/bluesky.ts`
(the `type` field is omitted: nothing in the modelled code reads it). -/
structure MediaFile where
  mimeType : String
  base64 : String
deriving DecidableEq

/-- A post record, from `Post` in `src/types/bluesky.ts`.  `scheduledFor` is
a millisecond timestamp; `none` models an absent optional field. -/
structure Post where
  id : String
  text : String
  scheduledFor : Int
  status : Status
  error : Option String := none
  media : Option (List MediaFile) := none
  blueskyHandle : Option String := none
deriving DecidableEq

/-- A thrown JavaScript value: either an `Error` carrying its message, or a
non-`Error` value (for the `error instanceof Error` test in the catch). -/
inductive Thrown where
  | jsError (msg : String)
  | nonError
deriving DecidableEq

/-- The `error instanceof Error ? error.message : 'Failed to publish post'`
translation of the catch in `publishPost`. -/
def errorMessage : Thrown → String
  | .jsError m => m
  | .nonError => "Failed to publish post"

/-- The payload of the `scheduled_posts` update issued by
`savePostToSupabase` (the source also refreshes `updated_at`, which the
backend trigger overwrites anyway and which no claim mentions). -/
structure SavePayload where
  id : String
  status : Status
  error : Option String
  media : Option (List MediaFile)
deriving DecidableEq

/-- Observable events of one publish attempt, in program order.  Each network
call is recorded when the source issues it. -/
inductive Ev where
  | readStatus (id : String)
  | addProcessed (id : String)
  | fetchCreds (id : String)
  | loginCall (id : String)
  | uploadCall (id : String)
  | createPost (id : String)
  | report (p : Post)
  | saveWrite (pl : SavePayload)
deriving DecidableEq

/-- Results of the external calls made during one publish attempt, plus the
ambient auth state captured by the hook (`auth.isAuthenticated`,
`auth.handle`, `user.id`).  An empty string models a falsy handle. -/
structure PublishEnv where
  isAuthenticated : Bool
  authHandle : String
  userId : Option String
  readStatus : Option Status
  credsError : Bool
  creds : Option (String × String)
  loginResult : Except Thrown Unit
  uploadResult : MediaFile → Except Thrown String
  createResult : Except Thrown Unit
  saveError : Option Thrown

/-- The `credentials?.handle && credentials?.password` truthiness test. -/
def credsOk : Option (String × String) → Bool
  | some (h, pw) => h != "" && pw != ""
  | none => false

/-- Outcome of one publish attempt: the events in order, the post reported
through `onPostUpdate` (if any), the update payload issued to the Post Store
(if any), and the payload the store actually applied (`none` when the write
was skipped or the store returned an error, which the source swallows). -/
structure AttemptOut where
  events : List Ev
  reported : Option Post
  dbWrite : Option SavePayload
  stored : Option SavePayload
deriving DecidableEq

/-- The failed-post construction `{...post, status: 'failed', error: msg}`:
all other fields, including `media`, are carried over unchanged. -/
def failedPost (p : Post) (msg : String) : Post :=
  { p with status := .failed, error := some msg }

/-- `savePostToSupabase` (`src/unnamed/part_003`, lines 18-38): returns
silently when the user id or handle is missing; otherwise issues the update,
catching and swallowing any store error.  Returns the events, the issued
payload, and the applied payload. -/
def savePostToSupabase (env : PublishEnv) (p : Post) :
    List Ev × Option SavePayload × Option SavePayload :=
  if env.userId = none ∨ env.authHandle = "" then ([], none, none)
  else
    ([Ev.saveWrite ⟨p.id, p.status, p.error, p.media⟩],
     some ⟨p.id, p.status, p.error, p.media⟩,
     if env.saveError = none then some ⟨p.id, p.status, p.error, p.media⟩ else none)

/-- The catch block of `publishPost`: report the post as failed with the
thrown message, then persist. -/
def catchUpdate (env : PublishEnv) (p : Post) (t : Thrown) :
    List Ev × Option Post × Option SavePayload × Option SavePayload :=
  let up := failedPost p (errorMessage t)
  let s := savePostToSupabase env up
  (Ev.report up :: s.1, some up, s.2.1, s.2.2)

/-- The `post.media && post.media.length > 0` test. -/
def hasMedia (p : Post) : Bool :=
  match p.media with
  | some (_ :: _) => true
  | _ => false

/-- The media list of a post (empty when absent). -/
def mediaList (p : Post) : List MediaFile :=
  p.media.getD []

/-- The rejection, if any, of `Promise.all(post.media.map(uploadImageBlob))`:
the first upload that fails. -/
def firstUploadFailure (env : PublishEnv) : List MediaFile → Option Thrown
  | [] => none
  | m :: rest =>
    match env.uploadResult m with
    | .error t => some t
    | .ok _ => firstUploadFailure env rest

/-- One whole publish attempt run in isolation: the sequential semantics of
`publishPost` (`src/unnamed/part_003`, lines 40-146).  `pr` is the
`processedPosts` de-duplication set (a list of post ids); the second
component of the result is its value after the attempt.  The source order is
kept exactly: the unauthenticated check, then the de-duplication check, then
the authoritative status re-read, then the insertion into the set, then the
credential fetch, login, optional uploads, the create call, and the
report/persist of the outcome. -/
def publishPostRun (env : PublishEnv) (p : Post) (pr : List String) :
    AttemptOut × List String :=
  if env.isAuthenticated = false ∨ env.authHandle = "" then
    let up := failedPost p "Not authenticated with Bluesky"
    let s := savePostToSupabase env up
    (⟨Ev.report up :: s.1, some up, s.2.1, s.2.2⟩, pr)
  else if p.id ∈ pr then
    (⟨[], none, none, none⟩, pr)
  else if env.readStatus ≠ some .scheduled then
    (⟨[Ev.readStatus p.id], none, none, none⟩, pr)
  else
    let pr2 := p.id :: pr
    let evs0 := [Ev.readStatus p.id, Ev.addProcessed p.id, Ev.fetchCreds p.id]
    if env.credsError = true ∨ credsOk env.creds = false then
      let c := catchUpdate env p (.jsError "Failed to retrieve Bluesky credentials")
      (⟨evs0 ++ c.1, c.2.1, c.2.2.1, c.2.2.2⟩, pr2)
    else
      let evs1 := evs0 ++ [Ev.loginCall p.id]
      match env.loginResult with
      | .error t =>
        let c := catchUpdate env p t
        (⟨evs1 ++ c.1, c.2.1, c.2.2.1, c.2.2.2⟩, pr2)
      | .ok _ =>
        let evs2 := evs1 ++ (if hasMedia p then [Ev.uploadCall p.id] else [])
        match (if hasMedia p then firstUploadFailure env (mediaList p) else none) with
        | some t =>
          let c := catchUpdate env p t
          (⟨evs2 ++ c.1, c.2.1, c.2.2.1, c.2.2.2⟩, pr2)
        | none =>
          let evs3 := evs2 ++ [Ev.createPost p.id]
          match env.createResult with
          | .error t =>
            let c := catchUpdate env p t
            (⟨evs3 ++ c.1, c.2.1, c.2.2.1, c.2.2.2⟩, pr2)
          | .ok _ =>
            let up := { p with status := Status.published, media := none }
            let s := savePostToSupabase env up
            (⟨evs3 ++ (Ev.report up :: s.1), some up, s.2.1, s.2.2⟩, pr2)

/-- Number of Publish Client `createPost` invocations for a given post id in
an event log. -/
def countCreate (evs : List Ev) (id : String) : Nat :=
  (evs.filter (fun e => e = Ev.createPost id)).length

/-! ### The scheduler effect run tick by tick, attempts not overlapping

`checkScheduledPosts` (`src/unnamed/part_003`, lines 151-162) takes the tick
time once, then for each post with snapshot status `scheduled`, due time not
after `now` and id not in the de-duplication set, awaits `publishPost`.
`runTickSeq` is that loop with every attempt run to completion before the
loop continues (the semantics when no two ticks overlap); `runActivation`
runs a list of ticks over one activation, whose de-duplication set starts
empty and is never cleared until the cleanup. -/

def runTickSeq (env : PublishEnv) (now : Int) :
    List Post → List String → List Ev → List String × List Ev
  | [], pr, lg => (pr, lg)
  | p :: rest, pr, lg =>
    if p.status = .scheduled ∧ p.scheduledFor ≤ now ∧ p.id ∉ pr then
      let r := publishPostRun env p pr
      runTickSeq env now rest r.2 (lg ++ r.1.events)
    else
      runTickSeq env now rest pr lg

def runActivation (posts : List Post) :
    List (PublishEnv × Int) → List String → List Ev → List String × List Ev
  | [], pr, lg => (pr, lg)
  | t :: ts, pr, lg =>
    let r := runTickSeq t.1 t.2 posts pr lg
    runActivation posts ts r.1 r.2

/-! ### The scheduler effect under cooperative interleaving

The same `publishPost` code cut at its `await` suspension points.  Between
two suspension points a handler runs atomically; at a suspension point any
other pending timer callback or resumed attempt may run.  `PC` names the
suspension point an attempt is parked at. -/

/-- Suspension points of one publish attempt, in source order: the
authoritative status re-read, the credential fetch, `agent.login`, the media
uploads, `agent.post`, and the `savePostToSupabase` write. -/
inductive PC where
  | waitRecheck
  | waitCreds
  | waitLogin
  | waitUpload
  | waitCreate
  | waitSave
deriving DecidableEq

/-- Result of running one atomic block of an attempt: events emitted, the
next suspension point (`none` when the attempt returned), and the new
de-duplication set. -/
structure BlockOut where
  events : List Ev
  next : Option PC
  processed : List String
deriving DecidableEq

/-- The synchronous prefix of `publishPost`, from entry to the first
suspension point: the unauthenticated check (which reports and starts the
persist), the de-duplication check, and the issue of the status re-read. -/
def entryBlock (env : PublishEnv) (p : Post) (pr : List String) : BlockOut :=
  if env.isAuthenticated = false ∨ env.authHandle = "" then
    let up := failedPost p "Not authenticated with Bluesky"
    let s := savePostToSupabase env up
    ⟨Ev.report up :: s.1, some .waitSave, pr⟩
  else if p.id ∈ pr then
    ⟨[], none, pr⟩
  else
    ⟨[Ev.readStatus p.id], some .waitRecheck, pr⟩

/-- Resume an attempt parked at a suspension point, running the source up to
the next suspension point (or to return).  The insertion into the
de-duplication set happens when the status re-read resolves. -/
def resumeBlock (env : PublishEnv) (p : Post) (pr : List String) : PC → BlockOut
  | .waitRecheck =>
    if env.readStatus ≠ some .scheduled then ⟨[], none, pr⟩
    else
      ⟨[Ev.addProcessed p.id, Ev.fetchCreds p.id], some .waitCreds, p.id :: pr⟩
  | .waitCreds =>
    if env.credsError = true ∨ credsOk env.creds = false then
      let c := catchUpdate env p (.jsError "Failed to retrieve Bluesky credentials")
      ⟨c.1, some .waitSave, pr⟩
    else
      ⟨[Ev.loginCall p.id], some .waitLogin, pr⟩
  | .waitLogin =>
    match env.loginResult with
    | .error t =>
      let c := catchUpdate env p t
      ⟨c.1, some .waitSave, pr⟩
    | .ok _ =>
      if hasMedia p then ⟨[Ev.uploadCall p.id], some .waitUpload, pr⟩
      else ⟨[Ev.createPost p.id], some .waitCreate, pr⟩
  | .waitUpload =>
    match firstUploadFailure env (mediaList p) with
    | some t =>
      let c := catchUpdate env p t
      ⟨c.1, some .waitSave, pr⟩
    | none =>
      ⟨[Ev.createPost p.id], some .waitCreate, pr⟩
  | .waitCreate =>
    match env.createResult with
    | .error t =>
      let c := catchUpdate env p t
      ⟨c.1, some .waitSave, pr⟩
    | .ok _ =>
      let up := { p with status := Status.published, media := none }
      let s := savePostToSupabase env up
      ⟨Ev.report up :: s.1, some .waitSave, pr⟩
  | .waitSave => ⟨[], none, pr⟩

/-- One `checkScheduledPosts` invocation: the tick time it captured, the
attempt it is currently awaiting, and the posts its loop has not yet
examined. -/
structure Task where
  now : Int
  current : Option (Post × PC)
  pending : List Post

/-- Shared state of one scheduler activation: the fixed post list the effect
watches, the de-duplication set, the global event log, and the live tasks. -/
structure Sys where
  posts : List Post
  processed : List String
  log : List Ev
  tasks : List Task

/-- The synchronous part of the tick loop: skip ineligible posts, and on the
first eligible one run the attempt's entry block up to its first suspension
point.  Returns the new set, the emitted events, the parked attempt (if
any), and the posts left for after it. -/
def tickLoop (env : PublishEnv) (now : Int) :
    List Post → List String → (List String × List Ev × Option (Post × PC) × List Post)
  | [], pr => (pr, [], none, [])
  | p :: rest, pr =>
    if p.status = .scheduled ∧ p.scheduledFor ≤ now ∧ p.id ∉ pr then
      let b := entryBlock env p pr
      match b.next with
      | none =>
        let r := tickLoop env now rest b.processed
        (r.1, b.events ++ r.2.1, r.2.2)
      | some pc => (b.processed, b.events, some (p, pc), rest)
    else
      tickLoop env now rest pr

/-- A scheduler action the event loop may perform next: a timer callback
fires, or the attempt of task `i` resumes from its suspension point. -/
inductive SchedAct where
  | fire (now : Int)
  | adv (i : Nat)

/-- One event-loop step of the activation. -/
def stepSys (env : PublishEnv) (s : Sys) : SchedAct → Sys
  | .fire now =>
    let r := tickLoop env now s.posts s.processed
    { s with processed := r.1, log := s.log ++ r.2.1,
             tasks := s.tasks ++ [⟨now, r.2.2.1, r.2.2.2⟩] }
  | .adv i =>
    match s.tasks[i]? with
    | none => s
    | some tk =>
      match tk.current with
      | none => s
      | some (p, pc) =>
        let b := resumeBlock env p s.processed pc
        match b.next with
        | some pc2 =>
          { s with processed := b.processed, log := s.log ++ b.events,
                   tasks := s.tasks.set i ⟨tk.now, some (p, pc2), tk.pending⟩ }
        | none =>
          let r := tickLoop env tk.now tk.pending b.processed
          { s with processed := r.1, log := s.log ++ b.events ++ r.2.1,
                   tasks := s.tasks.set i ⟨tk.now, r.2.2.1, r.2.2.2⟩ }

/-- Run a list of event-loop steps from an initial activation state. -/
def runSys (env : PublishEnv) (s : Sys) : List SchedAct → Sys
  | [] => s
  | a :: rest => runSys env (stepSys env s a) rest

/-! ### The scheduled-posts list view (`src/src/components/ScheduledPosts.tsx`) -/

/-- The `posts.filter(post => post.status !== 'published')` filter (line 16
of the component). -/
def unpublishedPosts (posts : List Post) : List Post :=
  posts.filter (fun p => p.status != Status.published)

/-- The calendar-day bucket used as grouping key.  The source formats the
timestamp as a `yyyy-MM-dd` string; day-bucketing an integer millisecond
timestamp models that (the exact key function does not matter to any claim,
only that equal keys group posts together). -/
def dateKey (t : Int) : Int :=
  Int.fdiv t 86400000

/-- Insert into a list kept sorted by a key, descending (the component sorts
groups and posts newest first). -/
def insertDescBy {α : Type} (key : α → Int) (a : α) : List α → List α
  | [] => [a]
  | b :: rest => if key b ≤ key a then a :: b :: rest else b :: insertDescBy key a rest

/-- Sort by a key, descending. -/
def sortDescBy {α : Type} (key : α → Int) : List α → List α
  | [] => []
  | a :: rest => insertDescBy key a (sortDescBy key rest)

/-- The group of a date key: the unpublished posts of that calendar day,
newest first (the component's `groupedPosts[dateKey]` after its sort). -/
def groupFor (posts : List Post) (k : Int) : List Post :=
  sortDescBy (fun p => p.scheduledFor) (posts.filter (fun p => dateKey p.scheduledFor == k))

/-- What the list view renders: the empty-state placeholder, or the date
groups (newest date first). -/
inductive PostsView where
  | emptyState
  | groups (gs : List (Int × List Post))
deriving DecidableEq

/-- The render logic of `ScheduledPosts`: filter out published posts; if
nothing is left show the placeholder, otherwise group by calendar day and
sort dates and posts newest first. -/
def scheduledPostsView (posts : List Post) : PostsView :=
  let un := unpublishedPosts posts
  if un.isEmpty then .emptyState
  else
    let keys := (un.map (fun p => dateKey p.scheduledFor)).dedup
    .groups ((sortDescBy (fun k => k) keys).map (fun k => (k, groupFor un k)))

/-- The edit-button gating of the list view (line 124 of the component): the
edit action is rendered only for `post.status === 'scheduled'`. -/
def showEditButton (p : Post) : Bool :=
  p.status == Status.scheduled

/-! ### The edit modal and compose form submissions -/

/-- `EditPostModal.handleSubmit` (`src/unnamed/part_000`, lines 24-48): the
chosen time must be strictly after `now`, otherwise the submission throws a
validation error and `onSave` is never invoked (no record changes).  On
success the saved record keeps every field except `text` and
`scheduledFor`. -/
def editSubmit (p : Post) (text : String) (scheduledFor now : Int) :
    Except String Post :=
  if scheduledFor ≤ now then Except.error "Scheduled time must be in the future"
  else Except.ok { p with text := text, scheduledFor := scheduledFor }

/-- The request `PostForm` hands to `onPostScheduled`. -/
structure NewPostReq where
  text : String
  scheduledFor : Int
  media : Option (List MediaFile)
deriving DecidableEq

/-- The scheduling branch of `PostForm.handleSubmit` (`src/unnamed/part_000`):
empty (all-whitespace) text is rejected first, then a chosen time not
strictly after `now` is rejected; only then is `onPostScheduled` invoked, so
no post record is created on rejection. -/
def postFormScheduleSubmit (text : String) (scheduledFor now : Int)
    (media : List MediaFile) : Except String NewPostReq :=
  if text.trim = "" then Except.error "Post text cannot be empty"
  else if scheduledFor ≤ now then Except.error "Scheduled time must be in the future"
  else Except.ok ⟨text, scheduledFor, if media.isEmpty then none else some media⟩

/-! ### The dashboard list refresh (`src/src/components/Dashboard.tsx`) -/

/-- The refresh cache window, `CACHE_DURATION` (5 minutes in ms). -/
def CACHE_DURATION : Int := 5 * 60 * 1000

/-- Dashboard state touched by `loadScheduledPosts`: the in-memory post
list, the UI error message, the loading flag and the last-fetch stamp. -/
structure DashState where
  posts : List Post
  errorMsg : Option String
  loading : Bool
  lastFetch : Int
deriving DecidableEq

/-- What the fetch of `scheduled_posts` returns: rows (already transformed
to posts), a store error (thrown in the try), or an abort of a superseded
request. -/
inductive FetchResult where
  | ok (posts : List Post)
  | storeErr (t : Thrown)
  | aborted

/-- The `error instanceof Error ? error.message : 'Failed to load scheduled
posts'` translation of the catch in `loadScheduledPosts`. -/
def loadErrMessage : Thrown → String
  | .jsError m => m
  | .nonError => "Failed to load scheduled posts"

/-- `loadScheduledPosts` (`Dashboard.tsx`, lines 49-106) as a state
transition, the fetch outcome supplied as input: missing user id or handle
returns after clearing `loading`; an unforced call inside the cache window
returns unchanged; otherwise the fetch runs with `error` reset, and on a
store error only the error message is set (the post list is not touched),
on success the list is replaced, on abort the catch returns early.  The
`finally` clears `loading` in all three cases. -/
def loadScheduledPosts (userId : Option String) (handle : String) (force : Bool)
    (now : Int) (res : FetchResult) (s : DashState) : DashState :=
  if userId = none ∨ handle = "" then { s with loading := false }
  else if force = false ∧ now - s.lastFetch < CACHE_DURATION then s
  else
    match res with
    | .ok posts =>
      { s with posts := posts, lastFetch := now, errorMsg := none, loading := false }
    | .storeErr t =>
      { s with errorMsg := some (loadErrMessage t), loading := false }
    | .aborted => { s with errorMsg := none, loading := false }

/-- What the dashboard's scheduled-posts section renders: the spinner, the
error panel (whose Try Again button re-invokes the refresh with
`force = true`), or the list. -/
inductive DashView where
  | spinner
  | errorRetry (msg : String)
  | list (posts : List Post)
deriving DecidableEq

/-- The render choice of the dashboard (lines 258-278): spinner while
loading, else the retryable error panel when an error is set, else the
list. -/
def dashboardView (s : DashState) : DashView :=
  if s.loading then .spinner
  else
    match s.errorMsg with
    | some m => .errorRetry m
    | none => .list s.posts

/-! ### The SQL scripts applied to a schema state

Modelled from the two SQL files.  Dropping a table drops the triggers
defined on it; functions and cron entries are separate objects and
survive. -/

/-- Triggers the scripts define on `scheduled_posts`. -/
inductive PTrigger where
  | updatedAtTrig
  | clearMediaTrig
deriving DecidableEq

/-- The schema objects the claims are about: the triggers currently on
`scheduled_posts`, the functions, and the cron jobs. -/
structure Schema where
  postsTriggers : List PTrigger
  functions : List String
  cronJobs : List String
deriving DecidableEq

/-- A schema with none of the objects. -/
def emptySchema : Schema := ⟨[], [], []⟩

/-- `supabase/migrations/20240316000000_create_tables.sql`: creates the
tables, both `updated_at` triggers, the `clear_media_after_publish` trigger
on `scheduled_posts`, the `delete_old_posts` function, and schedules the
daily `delete-old-posts` cron job. -/
def applyMigration (s : Schema) : Schema :=
  { postsTriggers := [.updatedAtTrig, .clearMediaTrig],
    functions := s.functions ++
      ["update_updated_at_column", "clear_media_after_publish", "delete_old_posts"],
    cronJobs := s.cronJobs ++ ["delete-old-posts"] }

/-- `update_tables.sql`: drops `scheduled_posts` (losing its triggers),
recreates it, and recreates only the `updated_at` trigger; it neither drops
nor recreates the `clear_media_after_publish` trigger, the
`delete_old_posts` function, or the cron entry. -/
def applyUpdateTables (s : Schema) : Schema :=
  { postsTriggers := [.updatedAtTrig],
    functions := s.functions ++ ["update_updated_at_column"],
    cronJobs := s.cronJobs }

/-- The schema after applying the repository's SQL scripts in order: the
migration, then `update_tables.sql`. -/
def finalSchema : Schema := applyUpdateTables (applyMigration emptySchema)

/-- A `scheduled_posts` row, restricted to the columns the triggers and the
purge touch. -/
structure PostsRow where
  status : Status
  media : Option String
  updatedAt : Int
deriving DecidableEq

/-- The BEFORE UPDATE trigger pipeline on `scheduled_posts`:
`clear_media_after_publish` nulls `media` when the status flips from
scheduled to published, and `update_updated_at_column` stamps
`updated_at` - each only when the schema has the trigger. -/
def runUpdateTriggers (sch : Schema) (old new : PostsRow) (now : Int) : PostsRow :=
  let r1 :=
    if sch.postsTriggers.contains PTrigger.clearMediaTrig
        ∧ new.status = .published ∧ old.status = .scheduled then
      { new with media := none }
    else new
  if sch.postsTriggers.contains PTrigger.updatedAtTrig then
    { r1 with updatedAt := now }
  else r1

/-- Milliseconds in 90 days, the purge horizon of `delete_old_posts`. -/
def ninetyDays : Int := 90 * 86400000

/-- The body of `delete_old_posts`: delete rows in status published whose
last update is older than 90 days. -/
def deleteOldPosts (db : List PostsRow) (now : Int) : List PostsRow :=
  db.filter (fun r => !(r.status == Status.published && decide (r.updatedAt < now - ninetyDays)))

/-- The daily cron run: executes `delete_old_posts` only when the schema has
the `delete-old-posts` job scheduled. -/
def runDailyJob (sch : Schema) (db : List PostsRow) (now : Int) : List PostsRow :=
  if sch.cronJobs.contains "delete-old-posts" then deleteOldPosts db now else db

/-! ### Event-order predicates for the de-duplication claims -/

/-- Events that are network calls of a publish attempt. -/
def isNetworkEv : Ev → Bool
  | .readStatus _ => true
  | .fetchCreds _ => true
  | .loginCall _ => true
  | .uploadCall _ => true
  | .createPost _ => true
  | .saveWrite _ => true
  | _ => false

/-- Events that are the credential fetch or a Publish Client call. -/
def isPublishSideEv : Ev → Bool
  | .fetchCreds _ => true
  | .loginCall _ => true
  | .uploadCall _ => true
  | .createPost _ => true
  | _ => false

/-- Scans an event list and checks that every event satisfying `netP` is
preceded by the insertion of `id` into the de-duplication set.  `added`
records whether the insertion has been seen so far. -/
def addPrecedes (id : String) (netP : Ev → Bool) (added : Bool) : List Ev → Bool
  | [] => true
  | e :: rest =>
    if netP e then added && addPrecedes id netP added rest
    else addPrecedes id netP (added || decide (e = Ev.addProcessed id)) rest

/-! ### Concrete fixtures for the counterexamples and witnesses -/

/-- An environment in which every external call succeeds. -/
def envAll : PublishEnv :=
  { isAuthenticated := true
    authHandle := "alice.bsky.social"
    userId := some "user-1"
    readStatus := some .scheduled
    credsError := false
    creds := some ("alice.bsky.social", "app-password")
    loginResult := .ok ()
    uploadResult := fun _ => .ok "blobref"
    createResult := .ok ()
    saveError := none }

/-- A due scheduled post with no media. -/
def postC : Post :=
  { id := "c", text := "hello", scheduledFor := 0, status := .scheduled }

/-- The activation state at effect setup: empty de-duplication set, no log,
no live timer callbacks, watching the singleton list `[postC]`. -/
def sys0 : Sys := ⟨[postC], [], [], []⟩

/-- A due scheduled post carrying a leftover error message. -/
def postE : Post :=
  { id := "e", text := "t", scheduledFor := 0, status := .scheduled,
    error := some "earlier failure" }

/-- An environment in which the authoritative re-read finds the post already
published. -/
def envGone : PublishEnv := { envAll with readStatus := some .published }

/-- An environment in which the Publish Client login is rejected. -/
def envBadLogin : PublishEnv :=
  { envAll with loginResult := .error (.jsError "Invalid identifier or password") }

/-- The interleaving in which a second timer tick fires while the first
tick's attempt is suspended at its authoritative status re-read, and the
two attempts then resume alternately. -/
def racySchedule : List SchedAct :=
  [.fire 0, .fire 30000, .adv 0, .adv 1, .adv 0, .adv 1, .adv 0, .adv 1]

/-! ## Helper lemmas -/

theorem countCreate_nil (id : String) : countCreate [] id = 0 := rfl

theorem countCreate_cons (e : Ev) (evs : List Ev) (id : String) :
    countCreate (e :: evs) id =
      (if e = Ev.createPost id then 1 else 0) + countCreate evs id := by
  by_cases h : e = Ev.createPost id <;> simp [countCreate, h]
  omega

theorem countCreate_append (a b : List Ev) (id : String) :
    countCreate (a ++ b) id = countCreate a id + countCreate b id := by
  simp [countCreate, List.filter_append]

theorem countCreate_save (env : PublishEnv) (q : Post) (id : String) :
    countCreate (savePostToSupabase env q).1 id = 0 := by
  unfold savePostToSupabase
  split <;> simp [countCreate]

theorem countCreate_catch (env : PublishEnv) (q : Post) (t : Thrown) (id : String) :
    countCreate (catchUpdate env q t).1 id = 0 := by
  simp [catchUpdate, countCreate_cons, countCreate_save]

/-- The publish attempt only ever inserts its own post's id: the set after
an attempt is either unchanged or grown by that id. -/
theorem publishPostRun_processed_cases (env : PublishEnv) (p : Post) (pr : List String) :
    (publishPostRun env p pr).2 = pr ∨ (publishPostRun env p pr).2 = p.id :: pr := by
  unfold publishPostRun
  split
  · exact Or.inl rfl
  split
  · exact Or.inl rfl
  split
  · exact Or.inl rfl
  · right
    repeat' split
    all_goals rfl

theorem mem_publishPostRun_processed (env : PublishEnv) (p : Post) (pr : List String)
    {x : String} (h : x ∈ pr) : x ∈ (publishPostRun env p pr).2 := by
  rcases publishPostRun_processed_cases env p pr with h2 | h2 <;> rw [h2]
  · exact h
  · exact List.mem_cons_of_mem _ h

/-- Each publish attempt issues the Publish Client create call at most once,
and only for its own post. -/
theorem countCreate_publishPostRun_le (env : PublishEnv) (p : Post) (pr : List String)
    (id : String) : countCreate (publishPostRun env p pr).1.events id ≤ 1 := by
  unfold publishPostRun
  repeat' split
  all_goals
    simp only [countCreate_append, countCreate_cons, countCreate_save, countCreate_catch,
      countCreate_nil]
  all_goals simp
  all_goals split <;> simp

/-- If an attempt issued the create call for some id, then that id is its
own post's id and it is in the de-duplication set after the attempt. -/
theorem countCreate_publishPostRun_mem (env : PublishEnv) (p : Post) (pr : List String)
    (id : String) (h : countCreate (publishPostRun env p pr).1.events id ≠ 0) :
    id ∈ (publishPostRun env p pr).2 := by
  revert h
  unfold publishPostRun
  repeat' split
  all_goals intro h
  all_goals
    by_cases hid : p.id = id
  all_goals
    simp only [countCreate_append, countCreate_cons, countCreate_save, countCreate_catch,
      countCreate_nil] at h
  all_goals simp [hid] at h ⊢

/-- An attempt never issues the create call for a different post's id. -/
theorem countCreate_publishPostRun_ne (env : PublishEnv) (p : Post) (pr : List String)
    (id : String) (hid : p.id ≠ id) :
    countCreate (publishPostRun env p pr).1.events id = 0 := by
  unfold publishPostRun
  repeat' split
  all_goals
    simp only [countCreate_append, countCreate_cons, countCreate_save, countCreate_catch,
      countCreate_nil]
  all_goals simp [hid]

/-- The activation invariant behind the de-duplication guarantee: the log
holds at most one create call per post id, and any id already created for is
in the de-duplication set. -/
def CreateInv (pr : List String) (lg : List Ev) : Prop :=
  ∀ id, countCreate lg id ≤ 1 ∧ (countCreate lg id ≠ 0 → id ∈ pr)

theorem runTickSeq_inv (env : PublishEnv) (now : Int) :
    ∀ (posts : List Post) (pr : List String) (lg : List Ev), CreateInv pr lg →
      CreateInv (runTickSeq env now posts pr lg).1 (runTickSeq env now posts pr lg).2
  | [], pr, lg, h => by simpa [runTickSeq] using h
  | p :: rest, pr, lg, h => by
    rw [runTickSeq]
    split
    case isTrue hc =>
      apply runTickSeq_inv env now rest
      intro id
      rcases h id with ⟨hle, hmem⟩
      by_cases hid : p.id = id
      · subst hid
        have h0 : countCreate lg p.id = 0 := by
          by_contra hne
          exact hc.2.2 (hmem hne)
        constructor
        · rw [countCreate_append, h0]
          simpa using countCreate_publishPostRun_le env p pr p.id
        · intro hne
          apply countCreate_publishPostRun_mem env p pr p.id
          rw [countCreate_append, h0] at hne
          simpa using hne
      · have h0 : countCreate (publishPostRun env p pr).1.events id = 0 :=
          countCreate_publishPostRun_ne env p pr id hid
        constructor
        · rw [countCreate_append, h0]
          simpa using hle
        · intro hne
          rw [countCreate_append, h0] at hne
          exact mem_publishPostRun_processed env p pr (hmem (by simpa using hne))
    case isFalse =>
      exact runTickSeq_inv env now rest pr lg h

theorem runActivation_inv (posts : List Post) :
    ∀ (ticks : List (PublishEnv × Int)) (pr : List String) (lg : List Ev),
      CreateInv pr lg →
      CreateInv (runActivation posts ticks pr lg).1 (runActivation posts ticks pr lg).2
  | [], pr, lg, h => by simpa [runActivation] using h
  | t :: ts, pr, lg, h => by
    rw [runActivation]
    exact runActivation_inv posts ts _ _ (runTickSeq_inv t.1 t.2 posts pr lg h)

/-! ## Claims -/

/-- C1, counterexample: the claim that `createPost` is invoked at most once
per post identity per scheduler activation fails on the code when two timer
ticks fire within the same attempt window.  In the interleaving
`racySchedule`, both ticks observe post `c` as scheduled and due, both pass
the de-duplication check before either attempt's insertion (which happens
only after the authoritative re-read resolves), and the Publish Client's
create call is issued twice for `c` within one activation. -/
theorem C1_counterexample :
    countCreate (runSys envAll sys0 racySchedule).log "c" = 2 := by decide

/-- C1, amended: the Publish Client's create call is issued at most once per
post identity per scheduler activation provided the attempts of distinct
ticks do not overlap, i.e. each tick's publish attempts run to completion
before the next tick fires (so no tick examines a post between another
attempt's de-duplication check and its insertion into the set). -/
theorem C1_amended_at_most_once_without_overlap (posts : List Post)
    (ticks : List (PublishEnv × Int)) (id : String) :
    countCreate (runActivation posts ticks [] []).2 id ≤ 1 := by
  have h0 : CreateInv [] [] := by
    intro i
    refine ⟨by simp [countCreate], fun h => ?_⟩
    simp [countCreate] at h
  exact (runActivation_inv posts ticks [] [] h0 id).1

/-- C2, counterexample: in a successful publish attempt the post's id is NOT
added to the de-duplication set before the first network call of the
attempt: the authoritative status re-read is issued first, and the insertion
happens only after it resolves. -/
theorem C2_counterexample :
    addPrecedes "c" isNetworkEv false (publishPostRun envAll postC []).1.events = false
      ∧ Ev.addProcessed "c" ∈ (publishPostRun envAll postC []).1.events := by decide

/-- C2, amended: in every publish attempt the post's id is added to the
de-duplication set before the credential fetch and before every Publish
Client call (login, upload, create) of that attempt - i.e. before every
network call except the authoritative status re-read, which precedes the
insertion. -/
theorem C2_amended_add_before_publish_calls (env : PublishEnv) (p : Post)
    (pr : List String) :
    addPrecedes p.id isPublishSideEv false (publishPostRun env p pr).1.events = true := by
  unfold publishPostRun
  repeat' split
  all_goals simp only [catchUpdate, savePostToSupabase]
  all_goals repeat' split
  all_goals simp [addPrecedes, isPublishSideEv]

/-- C3, counterexample: the claim that a successful publish clears the
post's error field fails on the code: the success branch only sets
`status` and clears `media`, spreading every other field - so a post that
entered the attempt with an error message keeps it in the reported and
persisted record. -/
theorem C3_counterexample :
    ((publishPostRun envAll postE []).1.reported.map Post.error) =
      some (some "earlier failure") := by decide

/-- C3, amended: on a successful publish attempt the post reported to the UI
and persisted to the Post Store has status published and its media cleared,
with every other field - including the error field, which is carried over
unchanged rather than cleared - equal to the input post's. -/
theorem C3_amended_success_fields (env : PublishEnv) (p : Post) (pr : List String)
    (hauth : env.isAuthenticated = true) (hh : env.authHandle ≠ "")
    (hu : env.userId ≠ none) (hpr : p.id ∉ pr)
    (hrs : env.readStatus = some .scheduled) (hce : env.credsError = false)
    (hcr : credsOk env.creds = true) (hl : env.loginResult = .ok ())
    (hupl : firstUploadFailure env (mediaList p) = none)
    (hcp : env.createResult = .ok ()) (hse : env.saveError = none) :
    (publishPostRun env p pr).1.reported =
        some { p with status := .published, media := none }
      ∧ (publishPostRun env p pr).1.dbWrite = some ⟨p.id, .published, p.error, none⟩
      ∧ (publishPostRun env p pr).1.stored = some ⟨p.id, .published, p.error, none⟩ := by
  simp [publishPostRun, savePostToSupabase, hauth, hh, hu, hpr, hrs, hce, hcr, hl,
    hupl, hcp, hse]

/-- C3, witness: the amended success-branch theorem applied to the all-ok
environment and the due post `postC`. -/
theorem C3_witness :
    (publishPostRun envAll postC []).1.reported =
        some { postC with status := .published, media := none }
      ∧ (publishPostRun envAll postC []).1.dbWrite =
          some ⟨postC.id, .published, postC.error, none⟩
      ∧ (publishPostRun envAll postC []).1.stored =
          some ⟨postC.id, .published, postC.error, none⟩ :=
  C3_amended_success_fields envAll postC [] rfl (by decide) (by decide) (by decide)
    rfl rfl (by decide) rfl rfl rfl rfl

/-- C4: for an authenticated publish attempt, a due post whose authoritative
status re-read from the Post Store is no longer scheduled is silently
skipped: nothing is reported, nothing is issued to or applied by the store,
and the Publish Client create call is not invoked; moreover a failed status
is only ever reported by a genuine publish attempt - one that either hit the
unauthenticated failure or passed an authoritative re-read that returned
scheduled. -/
theorem C4_skip_when_not_scheduled (env : PublishEnv) (p : Post) (pr : List String) :
    (env.isAuthenticated = true → env.authHandle ≠ "" →
      env.readStatus ≠ some .scheduled →
      (publishPostRun env p pr).1.reported = none
        ∧ (publishPostRun env p pr).1.dbWrite = none
        ∧ (publishPostRun env p pr).1.stored = none
        ∧ countCreate (publishPostRun env p pr).1.events p.id = 0)
    ∧ (∀ q, (publishPostRun env p pr).1.reported = some q → q.status = .failed →
        env.isAuthenticated = false ∨ env.authHandle = ""
          ∨ env.readStatus = some .scheduled) := by
  constructor
  · intro hauth hh hrs
    by_cases hpr : p.id ∈ pr <;>
      simp [publishPostRun, hauth, hh, hrs, hpr, countCreate]
  · intro q hrep hst
    by_cases h1 : env.isAuthenticated = false ∨ env.authHandle = ""
    · rcases h1 with h | h
      · exact Or.inl h
      · exact Or.inr (Or.inl h)
    · by_cases h2 : env.readStatus = some .scheduled
      · exact Or.inr (Or.inr h2)
      · exfalso
        revert hrep
        by_cases hpr : p.id ∈ pr <;> simp [publishPostRun, h1, h2, hpr]

/-- C4, witness: the skip theorem applied to the all-ok environment whose
authoritative re-read finds the post already published, and its
genuine-attempt conjunct applied to a failed login attempt. -/
theorem C4_witness :
    ((publishPostRun envGone postC []).1.reported = none
        ∧ (publishPostRun envGone postC []).1.dbWrite = none
        ∧ (publishPostRun envGone postC []).1.stored = none
        ∧ countCreate (publishPostRun envGone postC []).1.events postC.id = 0)
      ∧ (envBadLogin.isAuthenticated = false ∨ envBadLogin.authHandle = ""
          ∨ envBadLogin.readStatus = some .scheduled) :=
  ⟨(C4_skip_when_not_scheduled envGone postC []).1 rfl (by decide) (by decide),
   (C4_skip_when_not_scheduled envBadLogin postC []).2
     (failedPost postC "Invalid identifier or password") (by decide) (by decide)⟩

/-- The message attached by the catch is nonempty whenever every thrown
`Error` in scope carries a nonempty message (non-`Error` throws get the
nonempty fallback text). -/
theorem errorMessage_ne (t : Thrown) (h : ∀ m, t = .jsError m → m ≠ "") :
    errorMessage t ≠ "" := by
  cases t with
  | jsError m => exact h m rfl
  | nonError => simp [errorMessage]

/-- C5: every failing publish attempt - authentication failure, credential
retrieval failure, upload failure or submit failure - reports a post with
status failed and a nonempty error message, leaves the media field
untouched, and issues the matching persist to the Post Store (applied when
the store does not error), provided the owning user id and handle are
present and thrown `Error`s carry nonempty messages. -/
theorem C5_failed_fields (env : PublishEnv) (p : Post) (pr : List String)
    (hu : env.userId ≠ none) (hh : env.authHandle ≠ "")
    (hl : ∀ m, env.loginResult = .error (.jsError m) → m ≠ "")
    (hup : ∀ m, firstUploadFailure env (mediaList p) = some (.jsError m) → m ≠ "")
    (hcp : ∀ m, env.createResult = .error (.jsError m) → m ≠ "") :
    ∀ q, (publishPostRun env p pr).1.reported = some q → q.status = .failed →
      q.media = p.media
        ∧ (∃ m, q.error = some m ∧ m ≠ "")
        ∧ (publishPostRun env p pr).1.dbWrite = some ⟨p.id, .failed, q.error, p.media⟩
        ∧ (env.saveError = none →
            (publishPostRun env p pr).1.stored = some ⟨p.id, .failed, q.error, p.media⟩) := by
  intro q hrep hst
  revert hrep
  unfold publishPostRun
  repeat' split
  all_goals intro hrep
  all_goals simp only [catchUpdate, savePostToSupabase, failedPost] at hrep ⊢
  all_goals simp at hrep
  all_goals subst hrep
  all_goals simp at hst
  all_goals try contradiction
  all_goals refine ⟨rfl, ⟨_, rfl, ?_⟩, ?_, fun hse => ?_⟩
  all_goals try (simp [hu, hh, errorMessage, *]; done)
  · rename_i t heq
    exact errorMessage_ne t (fun m hm => hl m (by rw [heq, hm]))
  · rename_i t heq
    exact errorMessage_ne t (fun m hm => hup m (by rw [heq, hm]))
  · rename_i t heq
    exact errorMessage_ne t (fun m hm => hcp m (by rw [heq, hm]))
  · rename_i t heq
    exact errorMessage_ne t (fun m hm => hcp m (by rw [heq, hm]))

/-- C5, witness: the failure theorem applied to the environment whose
Publish Client login is rejected, on the due post `postC`. -/
theorem C5_witness :
    (failedPost postC "Invalid identifier or password").media = postC.media
      ∧ (∃ m, (failedPost postC "Invalid identifier or password").error = some m ∧ m ≠ "")
      ∧ (publishPostRun envBadLogin postC []).1.dbWrite =
          some ⟨postC.id, .failed,
            (failedPost postC "Invalid identifier or password").error, postC.media⟩
      ∧ (envBadLogin.saveError = none →
          (publishPostRun envBadLogin postC []).1.stored =
            some ⟨postC.id, .failed,
              (failedPost postC "Invalid identifier or password").error, postC.media⟩) := by
  exact C5_failed_fields envBadLogin postC [] (by decide) (by decide)
    (by intro m hm; simp [envBadLogin, envAll] at hm; subst hm; decide)
    (by intro m hm; simp [mediaList, postC, firstUploadFailure] at hm)
    (by intro m hm; simp [envBadLogin, envAll] at hm)
    (failedPost postC "Invalid identifier or password") (by decide) (by decide)

/-- C6, counterexample: in the schema that results from applying both SQL
scripts (the migration, then `update_tables.sql`), an update flipping a
row's status from scheduled to published does NOT null the media column:
`update_tables.sql` drops and recreates `scheduled_posts`, losing the
`clear_media_after_publish` trigger, and recreates only the `updated_at`
trigger. -/
theorem C6_counterexample :
    finalSchema.postsTriggers.contains PTrigger.clearMediaTrig = false
      ∧ (runUpdateTriggers finalSchema ⟨.scheduled, some "blob", 0⟩
          ⟨.published, some "blob", 0⟩ 1000).media = some "blob" := by decide

/-- C6, amended: in the schema of the migration script alone, the trigger
nulls media whenever status flips from scheduled to published; after
`update_tables.sql` is applied the recreated posts table no longer has that
trigger, so such an update leaves media as submitted; the daily
`delete-old-posts` cron job survives and purges published rows whose last
update is older than 90 days. -/
theorem C6_amended_triggers_and_purge (old new : PostsRow) (now : Int)
    (db : List PostsRow) (h1 : old.status = .scheduled) (h2 : new.status = .published) :
    (runUpdateTriggers (applyMigration emptySchema) old new now).media = none
      ∧ finalSchema.postsTriggers.contains PTrigger.clearMediaTrig = false
      ∧ (runUpdateTriggers finalSchema old new now).media = new.media
      ∧ finalSchema.cronJobs.contains "delete-old-posts" = true
      ∧ runDailyJob finalSchema db now = deleteOldPosts db now := by
  refine ⟨?_, by decide, ?_, by decide, ?_⟩
  · simp [runUpdateTriggers, applyMigration, emptySchema, h1, h2]
  · simp [runUpdateTriggers, finalSchema, applyUpdateTables, applyMigration, emptySchema]
  · simp [runDailyJob, finalSchema, applyUpdateTables, applyMigration, emptySchema]

/-- C6, witness: the amended schema theorem applied to a concrete
scheduled-to-published row update and a one-row table. -/
theorem C6_witness :
    (runUpdateTriggers (applyMigration emptySchema) ⟨.scheduled, some "b", 0⟩
        ⟨.published, some "b", 0⟩ 7).media = none
      ∧ finalSchema.postsTriggers.contains PTrigger.clearMediaTrig = false
      ∧ (runUpdateTriggers finalSchema ⟨.scheduled, some "b", 0⟩
          ⟨.published, some "b", 0⟩ 7).media = (⟨.published, some "b", 0⟩ : PostsRow).media
      ∧ finalSchema.cronJobs.contains "delete-old-posts" = true
      ∧ runDailyJob finalSchema [⟨.published, none, 0⟩] ninetyDays =
          deleteOldPosts [⟨.published, none, 0⟩] ninetyDays :=
  C6_amended_triggers_and_purge ⟨.scheduled, some "b", 0⟩ ⟨.published, some "b", 0⟩ 7
    [⟨.published, none, 0⟩] rfl rfl

/-- C7: the list view offers the edit action exactly for posts whose status
is scheduled, and both the edit modal and the compose form reject a
submission whose chosen target time is not strictly after the current time
with a validation error, invoking no save or creation callback. -/
theorem C7_edit_gating_and_future_time :
    (∀ p : Post, showEditButton p = true ↔ p.status = .scheduled)
      ∧ (∀ (p : Post) (text : String) (t now : Int), t ≤ now →
          editSubmit p text t now = Except.error "Scheduled time must be in the future")
      ∧ (∀ (text : String) (t now : Int) (media : List MediaFile), t ≤ now →
          ∃ m, postFormScheduleSubmit text t now media = Except.error m) := by
  refine ⟨?_, ?_, ?_⟩
  · intro p
    simp [showEditButton]
  · intro p text t now h
    simp [editSubmit, h]
  · intro text t now media h
    by_cases ht : text.trim = ""
    · exact ⟨"Post text cannot be empty", by simp [postFormScheduleSubmit, ht]⟩
    · exact ⟨"Scheduled time must be in the future",
        by simp [postFormScheduleSubmit, ht, h]⟩

/-- C7, witness: the gating and rejection theorem applied to the scheduled
post `postC` and a past target time. -/
theorem C7_witness :
    showEditButton postC = true
      ∧ editSubmit postC "x" 5 10 = Except.error "Scheduled time must be in the future"
      ∧ ∃ m, postFormScheduleSubmit "x" 5 10 [] = Except.error m := by
  have h := C7_edit_gating_and_future_time
  exact ⟨(h.1 postC).2 rfl, h.2.1 postC "x" 5 10 (by decide), h.2.2 "x" 5 10 [] (by decide)⟩

/-- C8: when the list-refresh fetch fails with a store error (and the
refresh actually runs: user id and handle present, forced or outside the
cache window), the resulting state keeps the in-memory post list exactly as
it was, records the error message, and the dashboard renders the retryable
error panel whose Try Again action re-invokes the refresh with force. -/
theorem C8_refresh_error_preserves_posts (uid : Option String) (handle : String)
    (force : Bool) (now : Int) (t : Thrown) (s : DashState)
    (hu : uid ≠ none) (hh : handle ≠ "")
    (hc : force = true ∨ CACHE_DURATION ≤ now - s.lastFetch) :
    (loadScheduledPosts uid handle force now (.storeErr t) s).posts = s.posts
      ∧ (loadScheduledPosts uid handle force now (.storeErr t) s).errorMsg =
          some (loadErrMessage t)
      ∧ dashboardView (loadScheduledPosts uid handle force now (.storeErr t) s) =
          .errorRetry (loadErrMessage t) := by
  have hcache : ¬(force = false ∧ now - s.lastFetch < CACHE_DURATION) := by
    rcases hc with h | h
    · simp [h]
    · intro hcon
      exact absurd hcon.2 (not_lt.mpr h)
  simp [loadScheduledPosts, dashboardView, hu, hh, hcache]

/-- C8, witness: the refresh-failure theorem applied to a concrete state and
a concrete store error. -/
theorem C8_witness :
    (loadScheduledPosts (some "u") "h" true 0
        (.storeErr (.jsError "boom")) ⟨[postC], none, false, 0⟩).posts = [postC]
      ∧ (loadScheduledPosts (some "u") "h" true 0
          (.storeErr (.jsError "boom")) ⟨[postC], none, false, 0⟩).errorMsg =
            some (loadErrMessage (.jsError "boom"))
      ∧ dashboardView (loadScheduledPosts (some "u") "h" true 0
          (.storeErr (.jsError "boom")) ⟨[postC], none, false, 0⟩) =
            .errorRetry (loadErrMessage (.jsError "boom")) :=
  C8_refresh_error_preserves_posts (some "u") "h" true 0 (.jsError "boom")
    ⟨[postC], none, false, 0⟩ (by decide) (by decide) (Or.inl rfl)

/-- C9: the scheduler swallows Post Store write-back failures.  First, the
post reported to the in-memory mirror through `onPostUpdate` is the same
whatever the store answers to the write-back (the report happens before the
persist, whose error is caught and dropped).  Second, when the owning user
id or the handle is missing, no write is issued to the store at all.  Third,
when the store errors the write is not applied - so the mirror and the
store can disagree about a post's status after an attempt. -/
theorem firstUploadFailure_saveError (env : PublishEnv) (e : Option Thrown)
    (l : List MediaFile) :
    firstUploadFailure { env with saveError := e } l = firstUploadFailure env l := by
  induction l with
  | nil => rfl
  | cons m rest ih =>
    dsimp only [firstUploadFailure]
    cases h : env.uploadResult m <;> simp [h, ih]

theorem C9_save_failure_swallowed :
    (∀ (env : PublishEnv) (p : Post) (pr : List String) (e : Option Thrown),
        (publishPostRun { env with saveError := e } p pr).1.reported =
          (publishPostRun env p pr).1.reported)
      ∧ (∀ (env : PublishEnv) (p : Post) (pr : List String),
          env.userId = none ∨ env.authHandle = "" →
          (publishPostRun env p pr).1.dbWrite = none)
      ∧ (∀ (env : PublishEnv) (p : Post) (pr : List String) (t : Thrown),
          env.saveError = some t → (publishPostRun env p pr).1.stored = none) := by
  refine ⟨?_, ?_, ?_⟩
  · intro env p pr e
    unfold publishPostRun
    dsimp only
    simp only [firstUploadFailure_saveError]
    repeat' split
    all_goals simp [catchUpdate]
  · intro env p pr h
    unfold publishPostRun
    repeat' split
    all_goals simp [catchUpdate, savePostToSupabase, h]
  · intro env p pr t h
    unfold publishPostRun
    repeat' split
    all_goals simp [catchUpdate, savePostToSupabase, h]
    all_goals split <;> rfl

/-- C9, witness: the swallowing theorem applied to the all-ok environment
with a missing user id, and to the all-ok environment whose store write
errors. -/
theorem C9_witness :
    (publishPostRun { envAll with saveError := some Thrown.nonError } postC []).1.reported =
        (publishPostRun envAll postC []).1.reported
      ∧ (publishPostRun { envAll with userId := none } postC []).1.dbWrite = none
      ∧ (publishPostRun { envAll with saveError := some Thrown.nonError } postC
          []).1.stored = none := by
  have h := C9_save_failure_swallowed
  exact ⟨h.1 envAll postC [] (some Thrown.nonError),
    h.2.1 { envAll with userId := none } postC [] (Or.inl rfl),
    h.2.2 { envAll with saveError := some Thrown.nonError } postC [] Thrown.nonError rfl⟩

theorem mem_insertDescBy {α : Type} (key : α → Int) (a : α) (l : List α) (x : α) :
    x ∈ insertDescBy key a l ↔ x = a ∨ x ∈ l := by
  induction l with
  | nil => simp [insertDescBy]
  | cons b rest ih =>
    rw [insertDescBy]
    split
    · simp
    · simp [ih]
      tauto

theorem mem_sortDescBy {α : Type} (key : α → Int) (l : List α) (x : α) :
    x ∈ sortDescBy key l ↔ x ∈ l := by
  induction l with
  | nil => simp [sortDescBy]
  | cons a rest ih => simp [sortDescBy, mem_insertDescBy, ih]

/-- C10: the scheduled-posts list view never displays a published post - a
post appearing in any rendered date group has a status other than
published - and when every post of the input list is published the view is
the empty-state placeholder. -/
theorem C10_no_published_displayed :
    (∀ (posts : List Post) (gs : List (Int × List Post)),
        scheduledPostsView posts = .groups gs →
        ∀ g ∈ gs, ∀ p ∈ g.2, p.status ≠ .published)
      ∧ (∀ posts : List Post, (∀ p ∈ posts, p.status = .published) →
          scheduledPostsView posts = .emptyState) := by
  constructor
  · intro posts gs hview g hg p hp
    revert hview
    simp only [scheduledPostsView]
    split
    · intro hview
      exact absurd hview (by simp)
    · intro hview
      have hgs := (PostsView.groups.injEq _ _).mp hview.symm
      subst hgs
      rcases List.mem_map.mp hg with ⟨k, _, hk⟩
      subst hk
      simp only [groupFor] at hp
      have hmem : p ∈ unpublishedPosts posts := by
        have h2 := (mem_sortDescBy (fun q => q.scheduledFor) _ p).mp hp
        exact List.mem_of_mem_filter h2
      have := List.of_mem_filter hmem
      simpa using this
  · intro posts hall
    have hnil : unpublishedPosts posts = [] := by
      unfold unpublishedPosts
      rw [List.filter_eq_nil_iff]
      intro a ha
      simp [hall a ha]
    unfold scheduledPostsView
    simp [hnil]

/-- A published post, for the list-view witness. -/
def postPub : Post :=
  { id := "p", text := "done", scheduledFor := 0, status := .published }

/-- C10, witness: the list-view theorem applied to a singleton scheduled
list (whose rendered group must not contain a published post) and to a
singleton published list (which renders the placeholder). -/
theorem C10_witness :
    postC.status ≠ .published ∧ scheduledPostsView [postPub] = .emptyState := by
  have h := C10_no_published_displayed
  refine ⟨?_, h.2 [postPub] (by decide)⟩
  exact h.1 [postC] [(0, [postC])] (by decide) (0, [postC]) (by decide) postC (by decide)

end BSched
